import Mathlib

/-!
Verification of the polkit-pkla-compat local-authority core.

The repository carries two C variants of each entry point:

* `src/src/polkitbackend/pkla-check-authorization.c` — the
  `pkla-check-authorization` CLI: decision engine with a defaults pass,
  accumulator starting from `UNKNOWN`, plus `main`.
* `src/unnamed/part_002` — the library backend
  (`polkit_backend_local_authority_check_authorization_sync` taking an
  `implicit` argument, starting the accumulator from it, with no defaults
  pass).
* `src/src/polkitbackend/pkla-admin-identities.c` — backend variant of
  `get_admin_auth_identities` that expands groups/netgroups and falls back
  to uid 0.
* `src/unnamed/part_001` — the `pkla-admin-identities` CLI, which appends
  parsed identities unexpanded and has no fallback.

Both variants of each function are embedded below.  The authorization
store itself (`polkitbackendlocalauthorizationstore.c`) is not part of the
sources; the engines consume it solely through
`polkit_backend_local_authorization_store_lookup`, so a store is embedded
as its lookup function.  OS databases (passwd, group, netgroup) and the
polkit identity parser are external collaborators and are embedded as an
explicit environment record.
-/

/-- `PolkitImplicitAuthorization` from the polkit library: the decision
outcomes.  `unknown` is the "no opinion" sentinel. -/
inductive ImplicitAuthorization where
  | unknown
  | notAuthorized
  | authenticationRequired
  | authenticationRequiredRetained
  | adminAuthenticationRequired
  | adminAuthenticationRequiredRetained
  | authorized
deriving DecidableEq

/-- `PolkitIdentity`: tagged unix-user (by uid), unix-group (by gid) or
unix-netgroup (by name) principal. -/
inductive PolkitIdentity where
  | unixUser : Nat → PolkitIdentity
  | unixGroup : Nat → PolkitIdentity
  | unixNetgroup : String → PolkitIdentity
deriving DecidableEq

/-- A `struct passwd` entry as used by `get_groups_for_user`: the login
name and primary group id. -/
structure Passwd where
  pw_name : String
  pw_gid : Nat
deriving DecidableEq

/-- A `struct group` entry as used by `get_users_in_group`: the member
name list `gr_mem`. -/
structure GroupEntry where
  gr_mem : List String
deriving DecidableEq

/-- One netgroup triple `(host, user, domain)` as yielded by
`getnetgrent`; each field may be NULL. -/
structure NetgroupTriple where
  hostname : Option String
  username : Option String
  domainname : Option String
deriving DecidableEq

/-- The OS and external-library environment consumed by the sources:
`getpwuid`, `getgrouplist`, `getgrgid`, `setnetgrent`/`getnetgrent`,
`polkit_unix_user_new_for_name` (name-to-uid resolution) and
`polkit_identity_from_string`.  `none` models the corresponding C failure
(NULL / negative return / unset entry). -/
structure OSEnv where
  getpwuid : Nat → Option Passwd
  grouplist : String → Nat → List Nat
  getgrgid : Nat → Option GroupEntry
  setnetgrent : String → Option (List NetgroupTriple)
  uidForName : String → Option Nat
  identityFromString : String → Option PolkitIdentity

/-- The member loop of `get_users_in_group`
(`pkla-admin-identities.c:309-330`, identical in `part_003:171-192`):
walk `gr_mem` in order, skip the literal name `"root"` unless
`include_root`, skip names `polkit_unix_user_new_for_name` cannot
resolve, collect the rest as unix users.  (The C prepends then reverses,
which yields this in-order traversal.) -/
def usersFromMembers (os : OSEnv) (include_root : Bool) : List String → List PolkitIdentity
  | [] => []
  | m :: rest =>
    if !include_root && m == "root" then usersFromMembers os include_root rest
    else
      match os.uidForName m with
      | none => usersFromMembers os include_root rest
      | some uid => PolkitIdentity.unixUser uid :: usersFromMembers os include_root rest

/-- `get_users_in_group` (`pkla-admin-identities.c:290-334`,
`part_003:152-196`): resolve the gid via `getgrgid`; on failure return
the empty list; otherwise expand the member list. -/
def get_users_in_group (os : OSEnv) (gid : Nat) (include_root : Bool) : List PolkitIdentity :=
  match os.getgrgid gid with
  | none => []
  | some grp => usersFromMembers os include_root grp.gr_mem

/-- The triple loop of `get_users_in_net_group`
(`pkla-admin-identities.c:352-381`, identical in `part_003:214-243`):
skip triples whose user field is NULL or the literal `"-"`, skip
unresolvable names, collect the rest as unix users.  The `include_root`
argument of the enclosing function is never consulted. -/
def usersFromTriples (os : OSEnv) : List NetgroupTriple → List PolkitIdentity
  | [] => []
  | t :: rest =>
    match t.username with
    | none => usersFromTriples os rest
    | some u =>
      if u == "-" then usersFromTriples os rest
      else
        match os.uidForName u with
        | none => usersFromTriples os rest
        | some uid => PolkitIdentity.unixUser uid :: usersFromTriples os rest

/-- `get_users_in_net_group` (`pkla-admin-identities.c:336-386`,
`part_003:198-248`): `setnetgrent` failure yields the empty list;
otherwise the triples are scanned.  Note the body never reads
`include_root`; the parameter is kept to mirror the C signature. -/
def get_users_in_net_group (os : OSEnv) (name : String)
    (include_root : Bool) : List PolkitIdentity :=
  match os.setnetgrent name with
  | none => []
  | some triples => usersFromTriples os triples

/-- `get_groups_for_user` (`pkla-check-authorization.c:295-334`,
identical in `part_002:527-566`): resolve the uid via `getpwuid` (failure
gives the empty list), call `getgrouplist` with a fixed 512-entry buffer
(`gid_t groups[512]; int num_groups = 512;`) — a negative return, i.e.
more than 512 groups, gives the empty list — then build the result by
prepending each gid (so the returned order is reversed). -/
def get_groups_for_user (os : OSEnv) (uid : Nat) : List PolkitIdentity :=
  match os.getpwuid uid with
  | none => []
  | some passwd =>
    let groups := os.grouplist passwd.pw_name passwd.pw_gid
    if groups.length > 512 then []
    else (groups.map PolkitIdentity.unixGroup).reverse

/-- Detail key/value pairs (`PolkitDetails`); only passed through to the
store lookup. -/
abbrev PolkitDetails := List (String × String)

/-- An authorization store, embedded as its
`polkit_backend_local_authorization_store_lookup` function: given an
identity (`none` embeds the NULL identity used for the defaults pass), an
action id and details, it either reports no match (`none`) or the
`(ResultAny, ResultInactive, ResultActive)` outcomes of the last matching
rule.  The store implementation itself is not among the sources. -/
abbrev AuthorizationStore :=
  Option PolkitIdentity → String → PolkitDetails →
    Option (ImplicitAuthorization × ImplicitAuthorization × ImplicitAuthorization)

/-- `update_ret_from_authorization_store`
(`pkla-check-authorization.c:208-244`): iterate the ordered stores; for
each match select `ret_active` when local and active, `ret_inactive` when
local only, `ret_any` otherwise, and overwrite the accumulator whenever
the selected value is not `unknown`. -/
def update_ret_from_authorization_store (stores : List AuthorizationStore)
    (ret : ImplicitAuthorization) (identity : Option PolkitIdentity)
    (subject_is_local subject_is_active : Bool)
    (action_id : String) (details : PolkitDetails) : ImplicitAuthorization :=
  stores.foldl
    (fun ret store =>
      match store identity action_id details with
      | none => ret
      | some (ret_any, ret_inactive, ret_active) =>
        let relevant_ret :=
          if subject_is_local && subject_is_active then ret_active
          else if subject_is_local then ret_inactive
          else ret_any
        if relevant_ret ≠ ImplicitAuthorization.unknown then relevant_ret else ret)
    ret

/-- `polkit_backend_local_authority_check_authorization_sync` of the CLI
(`pkla-check-authorization.c:246-291`): accumulator starts at `unknown`,
then a defaults pass (NULL identity), then one pass per group of the
user, then a pass for the user itself.  `user_for_subject` is always a
unix user (the CLI builds it with `polkit_unix_user_new_for_name`), so it
is embedded by its uid. -/
def check_authorization_sync_cli (stores : List AuthorizationStore) (os : OSEnv)
    (user_uid : Nat) (subject_is_local subject_is_active : Bool)
    (action_id : String) (details : PolkitDetails) : ImplicitAuthorization :=
  let ret := ImplicitAuthorization.unknown
  let ret := update_ret_from_authorization_store stores ret none
    subject_is_local subject_is_active action_id details
  let groups := get_groups_for_user os user_uid
  let ret := groups.foldl
    (fun ret group =>
      update_ret_from_authorization_store stores ret (some group)
        subject_is_local subject_is_active action_id details)
    ret
  update_ret_from_authorization_store stores ret (some (PolkitIdentity.unixUser user_uid))
    subject_is_local subject_is_active action_id details

/-- The store loop inlined twice in the library variant
(`part_002:458-486` and `part_002:492-520`): same selection and
overwrite logic as `update_ret_from_authorization_store`, written with
the library's nested-if structure. -/
def store_pass_lib (stores : List AuthorizationStore) (identity : PolkitIdentity)
    (subject_is_local subject_is_active : Bool) (action_id : String)
    (details : PolkitDetails) (ret0 : ImplicitAuthorization) : ImplicitAuthorization :=
  stores.foldl
    (fun ret store =>
      match store (some identity) action_id details with
      | none => ret
      | some (ret_any, ret_inactive, ret_active) =>
        if subject_is_local && subject_is_active then
          if ret_active ≠ ImplicitAuthorization.unknown then ret_active else ret
        else if subject_is_local then
          if ret_inactive ≠ ImplicitAuthorization.unknown then ret_inactive else ret
        else
          if ret_any ≠ ImplicitAuthorization.unknown then ret_any else ret)
    ret0

/-- `polkit_backend_local_authority_check_authorization_sync` of the
library backend (`part_002:420-523`): the accumulator starts at the
host-supplied `implicit`, then one pass per group of the user, then a
pass for the user itself.  There is no defaults pass in this variant. -/
def check_authorization_sync_lib (stores : List AuthorizationStore) (os : OSEnv)
    (user_uid : Nat) (subject_is_local subject_is_active : Bool)
    (action_id : String) (details : PolkitDetails)
    (implicit : ImplicitAuthorization) : ImplicitAuthorization :=
  let ret := implicit
  let groups := get_groups_for_user os user_uid
  let ret := groups.foldl
    (fun ret group =>
      store_pass_lib stores group
        subject_is_local subject_is_active action_id details ret)
    ret
  store_pass_lib stores (PolkitIdentity.unixUser user_uid)
    subject_is_local subject_is_active action_id details ret

/-- The entry loop of the backend variant of
`polkit_backend_local_authority_get_admin_auth_identities`
(`pkla-admin-identities.c:246-275`, identical in `part_003:108-137`):
parse each `AdminIdentities` entry, skip parse failures, append unix
users as-is, expand unix groups and netgroups with `include_root=FALSE`.
-/
def admin_entries_backend (os : OSEnv) (entries : List String) : List PolkitIdentity :=
  entries.foldl
    (fun ret s =>
      match os.identityFromString s with
      | none => ret
      | some (PolkitIdentity.unixUser u) => ret ++ [PolkitIdentity.unixUser u]
      | some (PolkitIdentity.unixGroup g) => ret ++ get_users_in_group os g false
      | some (PolkitIdentity.unixNetgroup n) => ret ++ get_users_in_net_group os n false)
    []

/-- `polkit_backend_local_authority_get_admin_auth_identities`, backend
variant (`pkla-admin-identities.c:212-286`): the configuration is the
result of `polkit_backend_config_source_get_string_list` (`none` embeds
the NULL/error return); an empty final list falls back to
`[unix-user:0]`. -/
def get_admin_auth_identities_backend (os : OSEnv)
    (admin_identities : Option (List String)) : List PolkitIdentity :=
  let ret :=
    match admin_identities with
    | none => []
    | some entries => admin_entries_backend os entries
  if ret = [] then [PolkitIdentity.unixUser 0] else ret

/-- `polkit_backend_local_authority_get_admin_auth_identities`, CLI
variant (`part_001:33-82`): every entry that parses is appended
unchanged — no group or netgroup expansion — and there is no uid 0
fallback (a missing key yields the empty list). -/
def get_admin_auth_identities_cli (os : OSEnv)
    (admin_identities : Option (List String)) : List PolkitIdentity :=
  match admin_identities with
  | none => []
  | some entries =>
    entries.foldl
      (fun ret s =>
        match os.identityFromString s with
        | none => ret
        | some identity => ret ++ [identity])
      []

/-- One entry yielded by `g_file_enumerator_next_file` during store-set
construction: a child name and whether it is a directory. -/
structure DirEntry where
  name : String
  isDirectory : Bool
deriving DecidableEq

/-- The filesystem view of the configured top-level paths, in configured
order: for each top-level, either `none` (enumerator creation failed, the
top-level is skipped) or the child entries in enumeration order. -/
abbrev TopLevels := List (Option (List DirEntry))

/-- `g_strcmp0` on two strings, embedded as codepoint comparison on the
character lists (byte-wise UTF-8 order and codepoint order coincide). -/
def g_strcmp0 : List Char → List Char → Ordering
  | [], [] => Ordering.eq
  | [], _ :: _ => Ordering.lt
  | _ :: _, [] => Ordering.gt
  | a :: as, b :: bs =>
    if a < b then Ordering.lt
    else if b < a then Ordering.gt
    else g_strcmp0 as bs

/-- The sort key synthesized in `add_all_authorization_stores`
(`pkla-check-authorization.c:136`, `part_002:212`):
`g_strdup_printf ("%s-%d", name, n)` — subdirectory name, a dash, and the
unpadded decimal top-level index. -/
def sort_key (name : String) (n : Nat) : List Char :=
  name.toList ++ Char.ofNat 45 :: (Nat.repr n).toList

/-- `authorization_store_path_compare_func`
(`pkla-check-authorization.c:77-88`), as the non-strict order used to
sort: `a` precedes `b` when `g_strcmp0` on their sort keys is not `gt`. -/
def store_key_le (a b : String × Nat) : Prop :=
  g_strcmp0 (sort_key a.1 a.2) (sort_key b.1 b.2) ≠ Ordering.gt

instance : DecidableRel store_key_le := by
  intro a b
  unfold store_key_le
  infer_instance

/-- The collection loop of `add_all_authorization_stores`
(`pkla-check-authorization.c:99-155`): walk the top-levels with their
index `n`, skip a top-level whose enumerator fails, keep only directory
children, and prepend each `(name, n)` to the accumulated list (the C
prepends `GFile`s carrying the sort key). -/
def collect_store_directories : TopLevels → Nat → List (String × Nat) → List (String × Nat)
  | [], _, acc => acc
  | none :: rest, n, acc => collect_store_directories rest (n + 1) acc
  | some entries :: rest, n, acc =>
    collect_store_directories rest (n + 1)
      ((entries.filter (fun e => e.isDirectory)).foldl (fun acc e => (e.name, n) :: acc) acc)

/-- `add_all_authorization_stores` (`pkla-check-authorization.c:90-175`,
identical in `part_002:164-251`): collect the subdirectories, sort them
by sort key (`g_list_sort` with `authorization_store_path_compare_func`;
a stable sort — embedded as insertion sort, which agrees with any stable
sort under this total preorder), and build one store per directory in
sorted order.  The result is the StoreSet order, each store identified by
its `(subdirectory name, top-level index)` pair. -/
def add_all_authorization_stores (toplevels : TopLevels) : List (String × Nat) :=
  List.insertionSort store_key_le (collect_store_directories toplevels 0 [])

/-- `parse_boolean` (`pkla-check-authorization.c:338-348`): only the
literal strings accepted; anything else sets the error (embedded as
`none`). -/
def parse_boolean (arg : String) : Option Bool :=
  if arg = "true" then some true
  else if arg = "false" then some false
  else none

/-- Modelled from the spec: `polkit_implicit_authorization_to_string`
(external polkit library, not among the sources) per the documented
result-value map — `yes`, `no`, `auth_self`, `auth_admin` and the `_keep`
variants, with `unknown` for the sentinel. -/
def implicit_authorization_to_string : ImplicitAuthorization → String
  | ImplicitAuthorization.unknown => "unknown"
  | ImplicitAuthorization.notAuthorized => "no"
  | ImplicitAuthorization.authenticationRequired => "auth_self"
  | ImplicitAuthorization.authenticationRequiredRetained => "auth_self_keep"
  | ImplicitAuthorization.adminAuthenticationRequired => "auth_admin"
  | ImplicitAuthorization.adminAuthenticationRequiredRetained => "auth_admin_keep"
  | ImplicitAuthorization.authorized => "yes"

/-- Observable outcome of one `pkla-check-authorization` run: process
exit status, everything printed to stdout, and whether an error message
went to stderr. -/
structure CliRun where
  exitCode : Nat
  stdout : String
  stderrMsg : Bool
deriving DecidableEq

/-- `main` of `pkla-check-authorization`
(`pkla-check-authorization.c:362-459`) after GLib option parsing:
`args` is the positional argument list `USER LOCAL? ACTIVE? ACTION`, and
`stores` the store set built from the `-p` paths.  A wrong argument
count, an unresolvable user or a non-literal boolean prints a message to
stderr and exits `EXIT_FAILURE` (1); otherwise the decided outcome is
printed with a trailing newline unless it is `unknown`, in which case
nothing is printed, and the exit status is 0. -/
def pkla_check_authorization_main (stores : List AuthorizationStore) (os : OSEnv)
    (args : List String) : CliRun :=
  match args with
  | [user, local_arg, active_arg, action] =>
    match os.uidForName user with
    | none => { exitCode := 1, stdout := "", stderrMsg := true }
    | some uid =>
      match parse_boolean local_arg with
      | none => { exitCode := 1, stdout := "", stderrMsg := true }
      | some subject_is_local =>
        match parse_boolean active_arg with
        | none => { exitCode := 1, stdout := "", stderrMsg := true }
        | some subject_is_active =>
          let result := check_authorization_sync_cli stores os uid
            subject_is_local subject_is_active action []
          { exitCode := 0,
            stdout :=
              if result ≠ ImplicitAuthorization.unknown then
                implicit_authorization_to_string result ++ "\n"
              else "",
            stderrMsg := false }
  | _ => { exitCode := 1, stdout := "", stderrMsg := true }

/-- The outcome slot selected for a matching rule, per the spec: `active`
when the subject is local and active, `inactive` when local only, `any`
otherwise. -/
def spec_pick (subject_is_local subject_is_active : Bool)
    (r : ImplicitAuthorization × ImplicitAuthorization × ImplicitAuthorization) :
    ImplicitAuthorization :=
  if subject_is_local && subject_is_active then r.2.2
  else if subject_is_local then r.2.1
  else r.1

/-- Modelled from the spec: the resolution loop of section 4.5 — fold the
identity probes in order, and within each probe fold the stores in order,
overwriting the accumulator with every non-`unknown` selected outcome. -/
def spec_resolution (stores : List AuthorizationStore)
    (subject_is_local subject_is_active : Bool) (action_id : String)
    (details : PolkitDetails) (init : ImplicitAuthorization)
    (probes : List (Option PolkitIdentity)) : ImplicitAuthorization :=
  probes.foldl
    (fun ret probe =>
      stores.foldl
        (fun ret store =>
          match store probe action_id details with
          | none => ret
          | some r =>
            let pick := spec_pick subject_is_local subject_is_active r
            if pick ≠ ImplicitAuthorization.unknown then pick else ret)
        ret)
    init

/-- Modelled from the spec: the claimed decision engine — three passes
(`none`, the groups of the user, the user), accumulator starting from the
host-supplied `implicit`. -/
def spec_three_pass_check (stores : List AuthorizationStore) (os : OSEnv)
    (user_uid : Nat) (subject_is_local subject_is_active : Bool)
    (action_id : String) (details : PolkitDetails)
    (implicit : ImplicitAuthorization) : ImplicitAuthorization :=
  spec_resolution stores subject_is_local subject_is_active action_id details implicit
    (none :: (get_groups_for_user os user_uid).map some
      ++ [some (PolkitIdentity.unixUser user_uid)])

/-- The ordered list of decided (non-`unknown`) selected outcomes over
the probes and the stores; used to state last-match-wins. -/
def decided_picks (stores : List AuthorizationStore)
    (subject_is_local subject_is_active : Bool) (action_id : String)
    (details : PolkitDetails) (probes : List (Option PolkitIdentity)) :
    List ImplicitAuthorization :=
  probes.flatMap
    (fun probe =>
      stores.filterMap
        (fun store =>
          match store probe action_id details with
          | none => none
          | some r =>
            let pick := spec_pick subject_is_local subject_is_active r
            if pick ≠ ImplicitAuthorization.unknown then some pick else none))

/-- Generic step invariant: a fold whose every step either keeps the
accumulator or produces a non-`unknown` value keeps that alternative. -/
lemma foldl_unchanged_or_decided {σ : Type}
    (f : ImplicitAuthorization → σ → ImplicitAuthorization)
    (hf : ∀ r s, f r s = r ∨ f r s ≠ ImplicitAuthorization.unknown) :
    ∀ (stores : List σ) (ret : ImplicitAuthorization),
      stores.foldl f ret = ret ∨ stores.foldl f ret ≠ ImplicitAuthorization.unknown := by
  intro stores
  induction stores with
  | nil => intro ret; exact Or.inl rfl
  | cons s ss ih =>
    intro ret
    rw [List.foldl_cons]
    rcases ih (f ret s) with h | h
    · rw [h]; exact hf ret s
    · exact Or.inr h

/-- The overwrite step: either the accumulator survives or the result is
decided. -/
lemma pick_step (v r : ImplicitAuthorization) :
    (if v ≠ ImplicitAuthorization.unknown then v else r) = r ∨
      (if v ≠ ImplicitAuthorization.unknown then v else r) ≠ ImplicitAuthorization.unknown := by
  by_cases h : v = ImplicitAuthorization.unknown
  · left; simp [h]
  · right; simp [h]

lemma update_ret_unchanged_or_decided (stores : List AuthorizationStore)
    (ret : ImplicitAuthorization) (oid : Option PolkitIdentity) (l a : Bool)
    (act : String) (d : PolkitDetails) :
    update_ret_from_authorization_store stores ret oid l a act d = ret ∨
      update_ret_from_authorization_store stores ret oid l a act d ≠
        ImplicitAuthorization.unknown := by
  refine foldl_unchanged_or_decided _ ?_ stores ret
  intro r s
  rcases hsd : s oid act d with _ | ⟨ra, ri, rc⟩
  · left; simp [hsd]
  · have hps := pick_step (if l && a then rc else if l then ri else ra) r
    simpa [hsd] using hps

lemma store_pass_lib_unchanged_or_decided (stores : List AuthorizationStore)
    (identity : PolkitIdentity) (l a : Bool) (act : String) (d : PolkitDetails)
    (ret : ImplicitAuthorization) :
    store_pass_lib stores identity l a act d ret = ret ∨
      store_pass_lib stores identity l a act d ret ≠ ImplicitAuthorization.unknown := by
  refine foldl_unchanged_or_decided _ ?_ stores ret
  intro r s
  rcases hsd : s (some identity) act d with _ | ⟨ra, ri, rc⟩
  · left; simp [store_pass_lib, hsd]
  · by_cases hla : (l && a) = true
    · have hps := pick_step rc r
      simpa [hsd, hla] using hps
    · by_cases hl : l = true
      · have ha : a = false := by
          cases a
          · rfl
          · exact absurd (by simp [hl]) hla
        have hps := pick_step ri r
        simpa [hsd, hl, ha] using hps
      · have hlf : l = false := by
          cases l
          · rfl
          · exact absurd rfl hl
        have hps := pick_step ra r
        simpa [hsd, hlf] using hps

/-- C6: throughout a query the accumulated result is only ever assigned a
non-`unknown` value: a whole store pass (in either engine variant) either
leaves the accumulator exactly as it was or yields a non-`unknown` value,
and consequently a decided (non-`unknown`) accumulator can never revert
to `unknown`. -/
theorem claim_C6_unknown_never_overwrites (stores : List AuthorizationStore)
    (ret : ImplicitAuthorization) (oid : Option PolkitIdentity)
    (identity : PolkitIdentity) (l a : Bool) (act : String) (d : PolkitDetails) :
    (update_ret_from_authorization_store stores ret oid l a act d = ret ∨
      update_ret_from_authorization_store stores ret oid l a act d ≠
        ImplicitAuthorization.unknown) ∧
    (store_pass_lib stores identity l a act d ret = ret ∨
      store_pass_lib stores identity l a act d ret ≠ ImplicitAuthorization.unknown) ∧
    (ret ≠ ImplicitAuthorization.unknown →
      update_ret_from_authorization_store stores ret oid l a act d ≠
        ImplicitAuthorization.unknown) ∧
    (ret ≠ ImplicitAuthorization.unknown →
      store_pass_lib stores identity l a act d ret ≠ ImplicitAuthorization.unknown) := by
  refine ⟨update_ret_unchanged_or_decided stores ret oid l a act d,
    store_pass_lib_unchanged_or_decided stores identity l a act d ret, ?_, ?_⟩
  · intro hret
    rcases update_ret_unchanged_or_decided stores ret oid l a act d with h | h
    · rw [h]; exact hret
    · exact h
  · intro hret
    rcases store_pass_lib_unchanged_or_decided stores identity l a act d ret with h | h
    · rw [h]; exact hret
    · exact h

/-- A store whose every lookup matches with the three outcomes
`(no, auth_self, yes)`; used to instantiate hypotheses concretely. -/
def constStore : AuthorizationStore := fun _ _ _ =>
  some (ImplicitAuthorization.notAuthorized,
    ImplicitAuthorization.authenticationRequired, ImplicitAuthorization.authorized)

theorem claim_C6_unknown_never_overwrites_witness :
    update_ret_from_authorization_store [constStore] ImplicitAuthorization.notAuthorized
        none true true "a" [] ≠ ImplicitAuthorization.unknown ∧
      store_pass_lib [constStore] (PolkitIdentity.unixUser 1) true true "a" []
          ImplicitAuthorization.notAuthorized ≠ ImplicitAuthorization.unknown := by
  have h := claim_C6_unknown_never_overwrites [constStore]
    ImplicitAuthorization.notAuthorized none (PolkitIdentity.unixUser 1) true true "a" []
  exact ⟨h.2.2.1 (by decide), h.2.2.2 (by decide)⟩

/-- Writing the overwrite step with the condition on the other side. -/
lemma ite_ne_swap (v r : ImplicitAuthorization) :
    (if v ≠ ImplicitAuthorization.unknown then v else r) =
      if v = ImplicitAuthorization.unknown then r else v := by
  by_cases h : v = ImplicitAuthorization.unknown <;> simp [h]

/-- C7: for a matching store lookup, both engine variants select the
`active` outcome exactly when the subject is local and active, the
`inactive` outcome when local but not active, and the `any` outcome in
every other case — in particular whenever the subject is not local,
regardless of activity. -/
theorem claim_C7_locality_activity_selection (s : AuthorizationStore)
    (oid : Option PolkitIdentity) (identity : PolkitIdentity) (act : String)
    (d : PolkitDetails) (ra ri rc ret : ImplicitAuthorization)
    (h : s oid act d = some (ra, ri, rc))
    (hid : s (some identity) act d = some (ra, ri, rc)) :
    (update_ret_from_authorization_store [s] ret oid true true act d =
      if rc = ImplicitAuthorization.unknown then ret else rc) ∧
    (update_ret_from_authorization_store [s] ret oid true false act d =
      if ri = ImplicitAuthorization.unknown then ret else ri) ∧
    (∀ b : Bool, update_ret_from_authorization_store [s] ret oid false b act d =
      if ra = ImplicitAuthorization.unknown then ret else ra) ∧
    (store_pass_lib [s] identity true true act d ret =
      if rc = ImplicitAuthorization.unknown then ret else rc) ∧
    (store_pass_lib [s] identity true false act d ret =
      if ri = ImplicitAuthorization.unknown then ret else ri) ∧
    (∀ b : Bool, store_pass_lib [s] identity false b act d ret =
      if ra = ImplicitAuthorization.unknown then ret else ra) := by
  refine ⟨?_, ?_, ?_, ?_, ?_, ?_⟩
  · rw [show update_ret_from_authorization_store [s] ret oid true true act d =
      update_ret_from_authorization_store [s] ret oid true true act d from rfl]
    simp only [update_ret_from_authorization_store, List.foldl_cons, List.foldl_nil, h]
    simpa using ite_ne_swap rc ret
  · simp only [update_ret_from_authorization_store, List.foldl_cons, List.foldl_nil, h]
    simpa using ite_ne_swap ri ret
  · intro b
    simp only [update_ret_from_authorization_store, List.foldl_cons, List.foldl_nil, h]
    simpa using ite_ne_swap ra ret
  · simp only [store_pass_lib, List.foldl_cons, List.foldl_nil, hid]
    simpa using ite_ne_swap rc ret
  · simp only [store_pass_lib, List.foldl_cons, List.foldl_nil, hid]
    simpa using ite_ne_swap ri ret
  · intro b
    simp only [store_pass_lib, List.foldl_cons, List.foldl_nil, hid]
    simpa using ite_ne_swap ra ret

theorem claim_C7_locality_activity_selection_witness :
    update_ret_from_authorization_store [constStore] ImplicitAuthorization.unknown
        none true true "a" [] = ImplicitAuthorization.authorized ∧
    update_ret_from_authorization_store [constStore] ImplicitAuthorization.unknown
        none true false "a" [] = ImplicitAuthorization.authenticationRequired ∧
    update_ret_from_authorization_store [constStore] ImplicitAuthorization.unknown
        none false true "a" [] = ImplicitAuthorization.notAuthorized ∧
    store_pass_lib [constStore] (PolkitIdentity.unixUser 1) false false "a" []
        ImplicitAuthorization.unknown = ImplicitAuthorization.notAuthorized := by
  have h := claim_C7_locality_activity_selection constStore none (PolkitIdentity.unixUser 1)
    "a" [] ImplicitAuthorization.notAuthorized ImplicitAuthorization.authenticationRequired
    ImplicitAuthorization.authorized ImplicitAuthorization.unknown rfl rfl
  refine ⟨?_, ?_, ?_, ?_⟩
  · rw [h.1]; decide
  · rw [h.2.1]; decide
  · rw [h.2.2.1 true]; decide
  · rw [h.2.2.2.2.2 false]; decide

/-- The selected slot of one lookup is undecided: the store does not
match, or its selected outcome is `unknown`. -/
def lookup_pick_unknown (l a : Bool) (act : String) (d : PolkitDetails)
    (s : AuthorizationStore) (oid : Option PolkitIdentity) : Prop :=
  match s oid act d with
  | none => True
  | some r => spec_pick l a r = ImplicitAuthorization.unknown

lemma store_pass_lib_cons (s : AuthorizationStore) (ss : List AuthorizationStore)
    (identity : PolkitIdentity) (l a : Bool) (act : String) (d : PolkitDetails)
    (ret : ImplicitAuthorization) :
    store_pass_lib (s :: ss) identity l a act d ret =
      store_pass_lib ss identity l a act d (store_pass_lib [s] identity l a act d ret) := by
  simp [store_pass_lib]

lemma store_pass_lib_single_unknown (s : AuthorizationStore) (identity : PolkitIdentity)
    (l a : Bool) (act : String) (d : PolkitDetails) (ret : ImplicitAuthorization)
    (h : lookup_pick_unknown l a act d s (some identity)) :
    store_pass_lib [s] identity l a act d ret = ret := by
  rcases hsd : s (some identity) act d with _ | ⟨ra, ri, rc⟩
  · simp [store_pass_lib, hsd]
  · have hu : spec_pick l a (ra, ri, rc) = ImplicitAuthorization.unknown := by
      have h2 := h
      unfold lookup_pick_unknown at h2
      rw [hsd] at h2
      exact h2
    cases l <;> cases a <;> simp [spec_pick] at hu <;> simp [store_pass_lib, hsd, hu]

lemma store_pass_lib_all_unknown (stores : List AuthorizationStore)
    (identity : PolkitIdentity) (l a : Bool) (act : String) (d : PolkitDetails)
    (h : ∀ s ∈ stores, lookup_pick_unknown l a act d s (some identity)) :
    ∀ ret, store_pass_lib stores identity l a act d ret = ret := by
  induction stores with
  | nil => intro ret; rfl
  | cons s ss ih =>
    intro ret
    rw [store_pass_lib_cons,
      store_pass_lib_single_unknown s identity l a act d ret (h s (by simp))]
    exact ih (fun t ht => h t (List.mem_cons_of_mem _ ht)) ret

/-- C2: if every lookup the library engine performs — each store probed
with each group of the user and with the user itself — is undecided in
the selected (local, active) slot, the engine returns the host-supplied
`implicit` unchanged; with an empty StoreSet the hypothesis is vacuous,
so every query returns `implicit`. -/
theorem claim_C2_returns_implicit (stores : List AuthorizationStore) (os : OSEnv)
    (uid : Nat) (l a : Bool) (act : String) (d : PolkitDetails)
    (implicit : ImplicitAuthorization)
    (h : ∀ s ∈ stores,
      ∀ oid ∈ (get_groups_for_user os uid).map some ++
        [some (PolkitIdentity.unixUser uid)],
      lookup_pick_unknown l a act d s oid) :
    check_authorization_sync_lib stores os uid l a act d implicit = implicit := by
  have hmain : check_authorization_sync_lib stores os uid l a act d implicit =
      store_pass_lib stores (PolkitIdentity.unixUser uid) l a act d
        (List.foldl (fun ret group => store_pass_lib stores group l a act d ret)
          implicit (get_groups_for_user os uid)) := rfl
  have huser : ∀ s ∈ stores,
      lookup_pick_unknown l a act d s (some (PolkitIdentity.unixUser uid)) := by
    intro s hs
    exact h s hs _ (by simp)
  have hgroups : ∀ g ∈ get_groups_for_user os uid, ∀ s ∈ stores,
      lookup_pick_unknown l a act d s (some g) := by
    intro g hg s hs
    exact h s hs (some g) (by simp [hg])
  have hfold : ∀ (gs : List PolkitIdentity),
      (∀ g ∈ gs, ∀ s ∈ stores, lookup_pick_unknown l a act d s (some g)) →
      ∀ r, gs.foldl (fun ret group => store_pass_lib stores group l a act d ret) r = r := by
    intro gs
    induction gs with
    | nil => intro _ r; rfl
    | cons g gs ih =>
      intro hgs r
      rw [List.foldl_cons,
        store_pass_lib_all_unknown stores g l a act d (hgs g (by simp)) r]
      exact ih (fun g2 hg2 s hs => hgs g2 (List.mem_cons_of_mem _ hg2) s hs) r
  rw [hmain, hfold _ hgroups implicit]
  exact store_pass_lib_all_unknown stores _ l a act d huser implicit

/-- An environment in which every OS database lookup fails. -/
def osEmpty : OSEnv where
  getpwuid := fun _ => none
  grouplist := fun _ _ => []
  getgrgid := fun _ => none
  setnetgrent := fun _ => none
  uidForName := fun _ => none
  identityFromString := fun _ => none

theorem claim_C2_returns_implicit_witness :
    check_authorization_sync_lib [] osEmpty 1 true true "org.example.a" []
      ImplicitAuthorization.authorized = ImplicitAuthorization.authorized :=
  claim_C2_returns_implicit [] osEmpty 1 true true "org.example.a" []
    ImplicitAuthorization.authorized (by intro s hs; simp at hs)

lemma root_in_usersFromTriples (os : OSEnv) (hres : os.uidForName "root" = some 0) :
    ∀ ts : List NetgroupTriple, (∃ t ∈ ts, t.username = some "root") →
      PolkitIdentity.unixUser 0 ∈ usersFromTriples os ts := by
  intro ts
  induction ts with
  | nil => rintro ⟨t, ht, _⟩; cases ht
  | cons t rest ih =>
    rintro ⟨w, hw, hwu⟩
    rcases List.mem_cons.mp hw with heq | hw2
    · subst heq
      simp [usersFromTriples, hwu, hres]
    · have hmem := ih ⟨w, hw2, hwu⟩
      rcases htu : t.username with _ | u
      · simpa [usersFromTriples, htu] using hmem
      · by_cases hdash : (u == "-") = true
        · simpa [usersFromTriples, htu, hdash] using hmem
        · rcases hu : os.uidForName u with _ | uid
          · simpa [usersFromTriples, htu, hdash, hu] using hmem
          · simp [usersFromTriples, htu, hdash, hu, hmem]

/-- C9: `get_users_in_net_group` never consults `include_root` — the
result is the same for both flag values, and a netgroup whose triples
name the user `"root"` yields that user even with `include_root=false` —
whereas `get_users_in_group` with `include_root=false` drops the literal
member name `"root"` (so a group whose only member is `"root"` expands to
the empty list). -/
theorem claim_C9_netgroup_ignores_include_root (os : OSEnv) (name : String)
    (gid : Nat) (ts : List NetgroupTriple) (ge : GroupEntry) (b1 b2 : Bool)
    (hng : os.setnetgrent name = some ts)
    (hroot : ∃ t ∈ ts, t.username = some "root")
    (hres : os.uidForName "root" = some 0)
    (hg : os.getgrgid gid = some ge)
    (hmem : ge.gr_mem = ["root"]) :
    get_users_in_net_group os name b1 = get_users_in_net_group os name b2 ∧
    PolkitIdentity.unixUser 0 ∈ get_users_in_net_group os name false ∧
    get_users_in_group os gid false = [] := by
  refine ⟨rfl, ?_, ?_⟩
  · rw [show get_users_in_net_group os name false = usersFromTriples os ts by
      simp [get_users_in_net_group, hng]]
    exact root_in_usersFromTriples os hres ts hroot
  · simp [get_users_in_group, hg, hmem, usersFromMembers]

/-- Concrete environment: netgroup `"ng"` holds the triple
`(-, root, -)`, group 5 has the single member `"root"`, and the name
`"root"` resolves to uid 0. -/
def osC9 : OSEnv where
  getpwuid := fun _ => none
  grouplist := fun _ _ => []
  getgrgid := fun g => if g = 5 then some { gr_mem := ["root"] } else none
  setnetgrent := fun n =>
    if n = "ng" then some [{ hostname := none, username := some "root", domainname := none }]
    else none
  uidForName := fun s => if s = "root" then some 0 else none
  identityFromString := fun _ => none

theorem claim_C9_netgroup_ignores_include_root_witness :
    get_users_in_net_group osC9 "ng" false = get_users_in_net_group osC9 "ng" true ∧
    PolkitIdentity.unixUser 0 ∈ get_users_in_net_group osC9 "ng" false ∧
    get_users_in_group osC9 5 false = [] := by
  have h := claim_C9_netgroup_ignores_include_root osC9 "ng" 5
    [{ hostname := none, username := some "root", domainname := none }]
    { gr_mem := ["root"] } false true (by decide) (by simp) (by decide) (by decide) rfl
  exact h

/-- C10: with the fixed 512-entry `getgrouplist` buffer, a user in more
than 512 groups — and likewise a uid with no passwd entry — makes
`get_groups_for_user` return the empty list, so in both engine variants
the groups pass contributes nothing while the remaining passes (defaults
and user for the CLI, user for the library) still run. -/
theorem claim_C10_group_buffer_overflow (stores : List AuthorizationStore) (os : OSEnv)
    (uid : Nat) (l a : Bool) (act : String) (d : PolkitDetails)
    (implicit : ImplicitAuthorization)
    (h : os.getpwuid uid = none ∨
      ∃ pw, os.getpwuid uid = some pw ∧ (os.grouplist pw.pw_name pw.pw_gid).length > 512) :
    get_groups_for_user os uid = [] ∧
    check_authorization_sync_cli stores os uid l a act d =
      update_ret_from_authorization_store stores
        (update_ret_from_authorization_store stores ImplicitAuthorization.unknown none l a act d)
        (some (PolkitIdentity.unixUser uid)) l a act d ∧
    check_authorization_sync_lib stores os uid l a act d implicit =
      store_pass_lib stores (PolkitIdentity.unixUser uid) l a act d implicit := by
  have hempty : get_groups_for_user os uid = [] := by
    rcases h with h | ⟨pw, hpw, hlen⟩
    · simp [get_groups_for_user, h]
    · simp [get_groups_for_user, hpw, hlen]
  refine ⟨hempty, ?_, ?_⟩
  · simp [check_authorization_sync_cli, hempty]
  · simp [check_authorization_sync_lib, hempty]

theorem claim_C10_group_buffer_overflow_witness :
    get_groups_for_user osEmpty 1 = [] ∧
    check_authorization_sync_cli [constStore] osEmpty 1 true true "a" [] =
      update_ret_from_authorization_store [constStore]
        (update_ret_from_authorization_store [constStore] ImplicitAuthorization.unknown
          none true true "a" [])
        (some (PolkitIdentity.unixUser 1)) true true "a" [] ∧
    check_authorization_sync_lib [constStore] osEmpty 1 true true "a" []
        ImplicitAuthorization.unknown =
      store_pass_lib [constStore] (PolkitIdentity.unixUser 1) true true "a" []
        ImplicitAuthorization.unknown :=
  claim_C10_group_buffer_overflow [constStore] osEmpty 1 true true "a" []
    ImplicitAuthorization.unknown (Or.inl rfl)

/-- C3 (amended): the backend variant of `get_admin_auth_identities`
expands a `unix-group` entry to `users_in_group(g, include_root=false)` —
which equals the expansion with root kept of the member list with the
literal name `"root"` filtered out, preserving OS member order — and a
`unix-netgroup` entry to `users_in_net_group(n, include_root=false)`;
the `pkla-admin-identities` CLI variant instead appends every parsed
identity itself, with no expansion. -/
theorem claim_C3_admin_group_expansion (os : OSEnv) (es : List String) (s : String)
    (g : Nat) (n : String) (identity : PolkitIdentity) :
    (os.identityFromString s = some (PolkitIdentity.unixGroup g) →
      admin_entries_backend os (es ++ [s]) =
        admin_entries_backend os es ++ get_users_in_group os g false) ∧
    (os.identityFromString s = some (PolkitIdentity.unixNetgroup n) →
      admin_entries_backend os (es ++ [s]) =
        admin_entries_backend os es ++ get_users_in_net_group os n false) ∧
    (∀ ms : List String, usersFromMembers os false ms =
      usersFromMembers os true (ms.filter (fun m => !(m == "root")))) ∧
    (os.identityFromString s = some identity →
      get_admin_auth_identities_cli os (some (es ++ [s])) =
        get_admin_auth_identities_cli os (some es) ++ [identity]) := by
  refine ⟨?_, ?_, ?_, ?_⟩
  · intro h
    simp [admin_entries_backend, List.foldl_append, h]
  · intro h
    simp [admin_entries_backend, List.foldl_append, h]
  · intro ms
    induction ms with
    | nil => rfl
    | cons m rest ih =>
      by_cases hbeq : (m == "root") = true
      · simp [usersFromMembers, hbeq, ih]
      · rcases hu : os.uidForName m with _ | uid <;>
          simp [usersFromMembers, hbeq, hu, ih]
  · intro h
    simp [get_admin_auth_identities_cli, List.foldl_append, h]

/-- Concrete environment for the admin-identities counterexample: group 5
has the single member `"alice"` (uid 7), and the string `"unix-group:5"`
parses to that group identity. -/
def osC3 : OSEnv where
  getpwuid := fun _ => none
  grouplist := fun _ _ => []
  getgrgid := fun g => if g = 5 then some { gr_mem := ["alice"] } else none
  setnetgrent := fun _ => none
  uidForName := fun s => if s = "alice" then some 7 else none
  identityFromString := fun s =>
    if s = "unix-group:5" then some (PolkitIdentity.unixGroup 5) else none

/-- C3 counterexample: on the configuration `["unix-group:5"]` the
`pkla-admin-identities` CLI variant returns the group identity itself,
not the group's members. -/
theorem claim_C3_admin_group_expansion_counterexample :
    get_admin_auth_identities_cli osC3 (some ["unix-group:5"]) =
      [PolkitIdentity.unixGroup 5] ∧
    get_users_in_group osC3 5 false = [PolkitIdentity.unixUser 7] ∧
    [PolkitIdentity.unixGroup 5] ≠ [PolkitIdentity.unixUser 7] := by
  refine ⟨by decide, by decide, by decide⟩

theorem claim_C3_admin_group_expansion_witness :
    admin_entries_backend osC3 ([] ++ ["unix-group:5"]) =
      admin_entries_backend osC3 [] ++ get_users_in_group osC3 5 false ∧
    get_admin_auth_identities_cli osC3 (some ([] ++ ["unix-group:5"])) =
      get_admin_auth_identities_cli osC3 (some []) ++ [PolkitIdentity.unixGroup 5] := by
  have h := claim_C3_admin_group_expansion osC3 [] "unix-group:5" 5 "x"
    (PolkitIdentity.unixGroup 5)
  exact ⟨h.1 (by decide), h.2.2.2 (by decide)⟩

/-- C4 (amended): the backend variant returns exactly `[unix-user:0]`
when `AdminIdentities` is absent or unreadable and when every entry is
skipped or expands to nothing; the `pkla-admin-identities` CLI variant
has no such fallback and returns the empty list when the key is absent.
-/
theorem claim_C4_root_fallback (os : OSEnv) (es : List String) :
    get_admin_auth_identities_backend os none = [PolkitIdentity.unixUser 0] ∧
    (admin_entries_backend os es = [] →
      get_admin_auth_identities_backend os (some es) = [PolkitIdentity.unixUser 0]) ∧
    get_admin_auth_identities_cli os none = [] := by
  refine ⟨rfl, ?_, rfl⟩
  intro h
  simp [get_admin_auth_identities_backend, h]

/-- C4 counterexample: with `AdminIdentities` absent the CLI variant
returns the empty list, not `[unix-user:0]`. -/
theorem claim_C4_root_fallback_counterexample :
    get_admin_auth_identities_cli osEmpty none = [] ∧
    ([] : List PolkitIdentity) ≠ [PolkitIdentity.unixUser 0] := by
  exact ⟨rfl, by decide⟩

theorem claim_C4_root_fallback_witness :
    get_admin_auth_identities_backend osEmpty none = [PolkitIdentity.unixUser 0] ∧
    get_admin_auth_identities_backend osEmpty (some ["bad"]) = [PolkitIdentity.unixUser 0] := by
  have h := claim_C4_root_fallback osEmpty ["bad"]
  exact ⟨h.1, h.2.1 (by decide)⟩

/-- The literal boolean strings parse back to the boolean they print. -/
lemma parse_boolean_literal (b : Bool) :
    parse_boolean (if b then "true" else "false") = some b := by
  cases b <;> decide

/-- C8 (amended): with four positional arguments, a resolvable user and
literal `true`/`false` booleans, `pkla-check-authorization` exits 0 and
prints the decided outcome followed by a newline — printing nothing at
all (not an empty line) when the decision is `unknown`; with a wrong
argument count, or with a local/active argument other than the literals,
it prints an error message to stderr and exits 1. -/
theorem claim_C8_cli_exit_and_output (stores : List AuthorizationStore) (os : OSEnv)
    (user action larg aarg : String) (uid : Nat) (l a : Bool) (args : List String) :
    (os.uidForName user = some uid →
      pkla_check_authorization_main stores os
          [user, if l then "true" else "false", if a then "true" else "false", action] =
        { exitCode := 0,
          stdout :=
            if check_authorization_sync_cli stores os uid l a action [] =
                ImplicitAuthorization.unknown then ""
            else implicit_authorization_to_string
              (check_authorization_sync_cli stores os uid l a action []) ++ "\n",
          stderrMsg := false }) ∧
    (args.length ≠ 4 →
      pkla_check_authorization_main stores os args =
        { exitCode := 1, stdout := "", stderrMsg := true }) ∧
    (os.uidForName user = some uid → parse_boolean larg = none →
      pkla_check_authorization_main stores os [user, larg, aarg, action] =
        { exitCode := 1, stdout := "", stderrMsg := true }) ∧
    (os.uidForName user = some uid → parse_boolean aarg = none →
      pkla_check_authorization_main stores os
          [user, if l then "true" else "false", aarg, action] =
        { exitCode := 1, stdout := "", stderrMsg := true }) := by
  refine ⟨?_, ?_, ?_, ?_⟩
  · intro hu
    by_cases hr : check_authorization_sync_cli stores os uid l a action [] =
        ImplicitAuthorization.unknown <;>
      simp [pkla_check_authorization_main, hu, parse_boolean_literal, hr]
  · intro hlen
    rcases args with _ | ⟨x1, _ | ⟨x2, _ | ⟨x3, _ | ⟨x4, _ | ⟨x5, rest⟩⟩⟩⟩⟩ <;>
      first
        | rfl
        | (exfalso; exact hlen rfl)
  · intro hu hl
    simp [pkla_check_authorization_main, hu, hl]
  · intro hu ha
    simp [pkla_check_authorization_main, hu, parse_boolean_literal, ha]

/-- Environment for the CLI run: only the user name `"u"` resolves. -/
def osC8 : OSEnv where
  getpwuid := fun _ => none
  grouplist := fun _ _ => []
  getgrgid := fun _ => none
  setnetgrent := fun _ => none
  uidForName := fun s => if s = "u" then some 1 else none
  identityFromString := fun _ => none

/-- C8 counterexample: a well-formed run whose decision is `unknown`
prints the empty string — no newline — rather than an empty line. -/
theorem claim_C8_cli_exit_and_output_counterexample :
    pkla_check_authorization_main [] osC8 ["u", "true", "true", "org.example.a"] =
      { exitCode := 0, stdout := "", stderrMsg := false } ∧
    ("" : String) ≠ "\n" := by
  exact ⟨by decide, by decide⟩

theorem claim_C8_cli_exit_and_output_witness :
    pkla_check_authorization_main [constStore] osC8
        ["u", "true", "true", "org.example.a"] =
      { exitCode := 0,
        stdout :=
          if check_authorization_sync_cli [constStore] osC8 1 true true "org.example.a" [] =
              ImplicitAuthorization.unknown then ""
          else implicit_authorization_to_string
            (check_authorization_sync_cli [constStore] osC8 1 true true "org.example.a" []) ++
              "\n",
        stderrMsg := false } ∧
    pkla_check_authorization_main [constStore] osC8 ["u", "true", "true"] =
      { exitCode := 1, stdout := "", stderrMsg := true } ∧
    pkla_check_authorization_main [constStore] osC8 ["u", "yes", "true", "org.example.a"] =
      { exitCode := 1, stdout := "", stderrMsg := true } := by
  have h := claim_C8_cli_exit_and_output [constStore] osC8 "u" "org.example.a" "yes" "x"
    1 true true ["u", "true", "true"]
  exact ⟨h.1 (by decide), h.2.1 (by decide), h.2.2.1 (by decide) (by decide)⟩

/-- The common per-store resolution step both engine loops implement:
no match keeps the accumulator, a match overwrites it when the selected
outcome is decided. -/
def resolution_step (probe : Option PolkitIdentity) (l a : Bool) (act : String)
    (d : PolkitDetails) (ret : ImplicitAuthorization) (s : AuthorizationStore) :
    ImplicitAuthorization :=
  match s probe act d with
  | none => ret
  | some r =>
    if spec_pick l a r ≠ ImplicitAuthorization.unknown then spec_pick l a r else ret

/-- A store holding only a default rule: it matches the NULL identity
(the defaults probe) with all three outcomes `yes`, and matches no
concrete identity. -/
def defaultOnlyStore : AuthorizationStore := fun oid _ _ =>
  match oid with
  | none => some (ImplicitAuthorization.authorized, ImplicitAuthorization.authorized,
      ImplicitAuthorization.authorized)
  | some _ => none

lemma update_ret_singleton_eq_step (s : AuthorizationStore) (ret : ImplicitAuthorization)
    (oid : Option PolkitIdentity) (l a : Bool) (act : String) (d : PolkitDetails) :
    update_ret_from_authorization_store [s] ret oid l a act d =
      resolution_step oid l a act d ret s := by
  rcases hsd : s oid act d with _ | ⟨ra, ri, rc⟩ <;>
    simp [update_ret_from_authorization_store, resolution_step, spec_pick, hsd]

lemma store_pass_lib_singleton_eq_step (s : AuthorizationStore) (ret : ImplicitAuthorization)
    (identity : PolkitIdentity) (l a : Bool) (act : String) (d : PolkitDetails) :
    store_pass_lib [s] identity l a act d ret =
      resolution_step (some identity) l a act d ret s := by
  rcases hsd : s (some identity) act d with _ | ⟨ra, ri, rc⟩
  · simp [store_pass_lib, resolution_step, hsd]
  · cases l <;> cases a <;>
      simp [store_pass_lib, resolution_step, spec_pick, hsd]

lemma update_ret_eq_fold (oid : Option PolkitIdentity) (l a : Bool) (act : String)
    (d : PolkitDetails) :
    ∀ (stores : List AuthorizationStore) (ret : ImplicitAuthorization),
      update_ret_from_authorization_store stores ret oid l a act d =
        stores.foldl (resolution_step oid l a act d) ret := by
  intro stores
  induction stores with
  | nil => intro ret; rfl
  | cons s ss ih =>
    intro ret
    have hcons : update_ret_from_authorization_store (s :: ss) ret oid l a act d =
        update_ret_from_authorization_store ss
          (update_ret_from_authorization_store [s] ret oid l a act d) oid l a act d := rfl
    rw [hcons, update_ret_singleton_eq_step, List.foldl_cons, ih]

lemma store_pass_lib_eq_fold (identity : PolkitIdentity) (l a : Bool) (act : String)
    (d : PolkitDetails) :
    ∀ (stores : List AuthorizationStore) (ret : ImplicitAuthorization),
      store_pass_lib stores identity l a act d ret =
        stores.foldl (resolution_step (some identity) l a act d) ret := by
  intro stores
  induction stores with
  | nil => intro ret; rfl
  | cons s ss ih =>
    intro ret
    rw [store_pass_lib_cons, store_pass_lib_singleton_eq_step, List.foldl_cons, ih]

lemma spec_resolution_inner_eq_fold (stores : List AuthorizationStore) (l a : Bool)
    (act : String) (d : PolkitDetails) (init : ImplicitAuthorization)
    (p : Option PolkitIdentity) :
    spec_resolution stores l a act d init [p] =
      stores.foldl (resolution_step p l a act d) init := by
  induction stores generalizing init with
  | nil => rfl
  | cons s ss ih =>
    rcases hsd : s p act d with _ | r <;>
      simp [spec_resolution, resolution_step, List.foldl_cons, hsd] <;>
      simpa [spec_resolution] using ih _

lemma spec_resolution_nil (stores : List AuthorizationStore) (l a : Bool) (act : String)
    (d : PolkitDetails) (init : ImplicitAuthorization) :
    spec_resolution stores l a act d init [] = init := rfl

lemma spec_resolution_cons (stores : List AuthorizationStore) (l a : Bool) (act : String)
    (d : PolkitDetails) (init : ImplicitAuthorization) (p : Option PolkitIdentity)
    (ps : List (Option PolkitIdentity)) :
    spec_resolution stores l a act d init (p :: ps) =
      spec_resolution stores l a act d (spec_resolution stores l a act d init [p]) ps := rfl

lemma spec_resolution_append (stores : List AuthorizationStore) (l a : Bool) (act : String)
    (d : PolkitDetails) (init : ImplicitAuthorization)
    (ps qs : List (Option PolkitIdentity)) :
    spec_resolution stores l a act d init (ps ++ qs) =
      spec_resolution stores l a act d (spec_resolution stores l a act d init ps) qs := by
  simp [spec_resolution, List.foldl_append]

lemma cli_groups_fold (stores : List AuthorizationStore) (l a : Bool) (act : String)
    (d : PolkitDetails) :
    ∀ (gs : List PolkitIdentity) (r : ImplicitAuthorization),
      gs.foldl (fun ret group =>
          update_ret_from_authorization_store stores ret (some group) l a act d) r =
        spec_resolution stores l a act d r (gs.map some) := by
  intro gs
  induction gs with
  | nil => intro r; rfl
  | cons g gs ih =>
    intro r
    rw [List.foldl_cons, ih, List.map_cons, spec_resolution_cons,
      spec_resolution_inner_eq_fold, update_ret_eq_fold]

lemma lib_groups_fold (stores : List AuthorizationStore) (l a : Bool) (act : String)
    (d : PolkitDetails) :
    ∀ (gs : List PolkitIdentity) (r : ImplicitAuthorization),
      gs.foldl (fun ret group => store_pass_lib stores group l a act d ret) r =
        spec_resolution stores l a act d r (gs.map some) := by
  intro gs
  induction gs with
  | nil => intro r; rfl
  | cons g gs ih =>
    intro r
    rw [List.foldl_cons, ih, List.map_cons, spec_resolution_cons,
      spec_resolution_inner_eq_fold, store_pass_lib_eq_fold]

lemma getLast_getD_of_cons :
    ∀ (l : List ImplicitAuthorization) (y i1 i2 : ImplicitAuthorization),
      ((y :: l).getLast?).getD i1 = ((y :: l).getLast?).getD i2 := by
  intro l
  induction l with
  | nil => intro y i1 i2; rfl
  | cons z zs ih =>
    intro y i1 i2
    rw [List.getLast?_cons_cons]
    exact ih z i1 i2

lemma foldl_overwrite_eq_getLast :
    ∀ (xs : List ImplicitAuthorization) (init : ImplicitAuthorization),
      xs.foldl (fun _ v => v) init = xs.getLast?.getD init := by
  intro xs
  induction xs with
  | nil => intro init; rfl
  | cons x xs ih =>
    intro init
    rw [List.foldl_cons, ih x]
    rcases xs with _ | ⟨y, ys⟩
    · rfl
    · rw [List.getLast?_cons_cons]
      exact getLast_getD_of_cons ys y x init

lemma foldl_step_eq_picks (p : Option PolkitIdentity) (l a : Bool) (act : String)
    (d : PolkitDetails) :
    ∀ (stores : List AuthorizationStore) (init : ImplicitAuthorization),
      stores.foldl (resolution_step p l a act d) init =
        (stores.filterMap
          (fun store =>
            match store p act d with
            | none => none
            | some r =>
              let pick := spec_pick l a r
              if pick ≠ ImplicitAuthorization.unknown then some pick else none)).foldl
          (fun _ v => v) init := by
  intro stores
  induction stores with
  | nil => intro init; rfl
  | cons s ss ih =>
    intro init
    rw [List.foldl_cons]
    rcases hsd : s p act d with _ | r
    · rw [List.filterMap_cons]
      simp only [hsd]
      rw [show resolution_step p l a act d init s = init by simp [resolution_step, hsd]]
      exact ih init
    · by_cases hpick : spec_pick l a r = ImplicitAuthorization.unknown
      · rw [List.filterMap_cons]
        simp only [hsd, hpick, ne_eq, not_true_eq_false, if_false, ite_false]
        rw [show resolution_step p l a act d init s = init by
          simp [resolution_step, hsd, hpick]]
        exact ih init
      · rw [List.filterMap_cons]
        simp only [hsd, hpick, ne_eq, not_false_eq_true, if_true, ite_true]
        rw [show resolution_step p l a act d init s = spec_pick l a r by
          simp [resolution_step, hsd, hpick]]
        rw [List.foldl_cons]
        exact ih (spec_pick l a r)

lemma spec_resolution_eq_picks_fold (stores : List AuthorizationStore) (l a : Bool)
    (act : String) (d : PolkitDetails) :
    ∀ (probes : List (Option PolkitIdentity)) (init : ImplicitAuthorization),
      spec_resolution stores l a act d init probes =
        (decided_picks stores l a act d probes).foldl (fun _ v => v) init := by
  intro probes
  induction probes with
  | nil => intro init; rfl
  | cons p ps ih =>
    intro init
    rw [spec_resolution_cons, ih, spec_resolution_inner_eq_fold, foldl_step_eq_picks]
    rw [show decided_picks stores l a act d (p :: ps) =
        (stores.filterMap
          (fun store =>
            match store p act d with
            | none => none
            | some r =>
              let pick := spec_pick l a r
              if pick ≠ ImplicitAuthorization.unknown then some pick else none)) ++
          decided_picks stores l a act d ps by
      simp [decided_picks]]
    rw [List.foldl_append]

/-- C1 (amended): the CLI engine equals the spec resolution loop over the
probe sequence defaults-then-groups-then-user with accumulator starting
from `unknown`; the library engine (the variant taking `implicit`) equals
the same loop over groups-then-user only — it performs no defaults pass —
starting from `implicit`; and the resolution loop returns the last
decided (non-`unknown`) selected outcome in probe-major, store-minor
order, so later passes and later stores override earlier ones. -/
theorem claim_C1_pass_structure (stores : List AuthorizationStore) (os : OSEnv)
    (uid : Nat) (l a : Bool) (act : String) (d : PolkitDetails)
    (implicit : ImplicitAuthorization) :
    (check_authorization_sync_cli stores os uid l a act d =
      spec_resolution stores l a act d ImplicitAuthorization.unknown
        (none :: (get_groups_for_user os uid).map some ++
          [some (PolkitIdentity.unixUser uid)])) ∧
    (check_authorization_sync_lib stores os uid l a act d implicit =
      spec_resolution stores l a act d implicit
        ((get_groups_for_user os uid).map some ++
          [some (PolkitIdentity.unixUser uid)])) ∧
    (∀ (init : ImplicitAuthorization) (probes : List (Option PolkitIdentity)),
      spec_resolution stores l a act d init probes =
        (decided_picks stores l a act d probes).getLast?.getD init) := by
  refine ⟨?_, ?_, ?_⟩
  · have hcli : check_authorization_sync_cli stores os uid l a act d =
        update_ret_from_authorization_store stores
          ((get_groups_for_user os uid).foldl
            (fun ret group =>
              update_ret_from_authorization_store stores ret (some group) l a act d)
            (update_ret_from_authorization_store stores ImplicitAuthorization.unknown
              none l a act d))
          (some (PolkitIdentity.unixUser uid)) l a act d := rfl
    rw [hcli, cli_groups_fold, update_ret_eq_fold, update_ret_eq_fold,
      spec_resolution_append, spec_resolution_inner_eq_fold, spec_resolution_cons,
      spec_resolution_inner_eq_fold]
  · have hlib : check_authorization_sync_lib stores os uid l a act d implicit =
        store_pass_lib stores (PolkitIdentity.unixUser uid) l a act d
          ((get_groups_for_user os uid).foldl
            (fun ret group => store_pass_lib stores group l a act d ret) implicit) := rfl
    rw [hlib, lib_groups_fold, store_pass_lib_eq_fold, spec_resolution_append,
      spec_resolution_inner_eq_fold]
  · intro init probes
    rw [spec_resolution_eq_picks_fold, foldl_overwrite_eq_getLast]

/-- C1 counterexample: on a store set holding only a default rule, the
library engine — whose query carries the `implicit` input named by the
claim — returns `implicit` (`unknown`) untouched, while the claimed
three-pass algorithm would return the defaults-pass outcome `yes`: the
library variant performs no defaults pass. -/
theorem claim_C1_pass_structure_counterexample :
    check_authorization_sync_lib [defaultOnlyStore] osEmpty 1 true true "org.example.a" []
        ImplicitAuthorization.unknown = ImplicitAuthorization.unknown ∧
    spec_three_pass_check [defaultOnlyStore] osEmpty 1 true true "org.example.a" []
        ImplicitAuthorization.unknown = ImplicitAuthorization.authorized ∧
    check_authorization_sync_lib [defaultOnlyStore] osEmpty 1 true true "org.example.a" []
        ImplicitAuthorization.unknown ≠
      spec_three_pass_check [defaultOnlyStore] osEmpty 1 true true "org.example.a" []
        ImplicitAuthorization.unknown := by
  exact ⟨by decide, by decide, by decide⟩

lemma g_strcmp0_nil_ne_gt : ∀ c : List Char, g_strcmp0 [] c ≠ Ordering.gt := by
  intro c
  cases c <;> simp [g_strcmp0]

lemma g_strcmp0_swap : ∀ a b : List Char,
    g_strcmp0 a b = Ordering.lt ↔ g_strcmp0 b a = Ordering.gt := by
  intro a
  induction a with
  | nil => intro b; cases b <;> simp [g_strcmp0]
  | cons x xs ih =>
    intro b
    cases b with
    | nil => simp [g_strcmp0]
    | cons y ys =>
      by_cases hxy : x < y
      · have hyx : ¬ y < x := lt_asymm hxy
        simp [g_strcmp0, hxy, hyx]
      · by_cases hyx : y < x
        · simp [g_strcmp0, hxy, hyx]
        · simp [g_strcmp0, hxy, hyx, ih ys]

lemma g_strcmp0_le_trans : ∀ a b c : List Char,
    g_strcmp0 a b ≠ Ordering.gt → g_strcmp0 b c ≠ Ordering.gt →
      g_strcmp0 a c ≠ Ordering.gt := by
  intro a
  induction a with
  | nil => intro b c _ _; exact g_strcmp0_nil_ne_gt c
  | cons x xs ih =>
    intro b c hab hbc
    cases b with
    | nil => exact absurd rfl hab
    | cons y ys =>
      cases c with
      | nil => exact absurd rfl hbc
      | cons z zs =>
        by_cases hxy : x < y
        · by_cases hyz : y < z
          · have hxz : x < z := lt_trans hxy hyz
            simp [g_strcmp0, hxz]
          · by_cases hzy : z < y
            · exact absurd (by simp [g_strcmp0, hyz, hzy]) hbc
            · have heq : y = z := le_antisymm (not_lt.mp hzy) (not_lt.mp hyz)
              subst heq
              simp [g_strcmp0, hxy]
        · by_cases hyx : y < x
          · exact absurd (by simp [g_strcmp0, hxy, hyx]) hab
          · have heq : x = y := le_antisymm (not_lt.mp hyx) (not_lt.mp hxy)
            subst heq
            by_cases hxz : x < z
            · simp [g_strcmp0, hxz]
            · by_cases hzx : z < x
              · exact absurd (by simp [g_strcmp0, hxz, hzx]) hbc
              · have heq2 : x = z := le_antisymm (not_lt.mp hzx) (not_lt.mp hxz)
                subst heq2
                simp only [g_strcmp0, lt_irrefl, if_false, ite_false] at hab hbc ⊢
                exact ih ys zs hab hbc

instance : IsTrans (String × Nat) store_key_le :=
  ⟨fun _ _ _ hab hbc => g_strcmp0_le_trans _ _ _ hab hbc⟩

instance : IsTotal (String × Nat) store_key_le := by
  constructor
  intro p q
  by_cases h : g_strcmp0 (sort_key p.1 p.2) (sort_key q.1 q.2) = Ordering.gt
  · right
    intro hqp
    have hlt : g_strcmp0 (sort_key q.1 q.2) (sort_key p.1 p.2) = Ordering.lt :=
      (g_strcmp0_swap _ _).mpr h
    rw [hlt] at hqp
    exact Ordering.noConfusion hqp
  · left; exact h

lemma g_strcmp0_append_left : ∀ (s a b : List Char),
    g_strcmp0 (s ++ a) (s ++ b) = g_strcmp0 a b := by
  intro s
  induction s with
  | nil => intro a b; rfl
  | cons c cs ih => intro a b; simp [g_strcmp0, lt_irrefl, ih]

lemma repr_digit_lt (m n : Nat) (hmn : m < n) (hn : n ≤ 9) :
    g_strcmp0 (Nat.repr m).toList (Nat.repr n).toList = Ordering.lt := by
  have hb : ∀ m2 < 10, ∀ n2 < 10, m2 < n2 →
      g_strcmp0 (Nat.repr m2).toList (Nat.repr n2).toList = Ordering.lt := by decide
  exact hb m (by omega) n (by omega) hmn

/-- Single-digit top-level indices give strictly increasing sort keys on
equal subdirectory names. -/
lemma sort_key_lt (d : String) (m n : Nat) (hmn : m < n) (hn : n ≤ 9) :
    g_strcmp0 (sort_key d m) (sort_key d n) = Ordering.lt := by
  rw [sort_key, sort_key, g_strcmp0_append_left]
  simpa [g_strcmp0, lt_irrefl] using repr_digit_lt m n hmn hn

lemma sorted_positions_lt (l : List (String × Nat)) (hs : List.Pairwise store_key_le l)
    (d : String) (m n : Nat) (hmn : m < n) (hn : n ≤ 9) :
    ∀ i j : Fin l.length, l.get i = (d, m) → l.get j = (d, n) → i < j := by
  intro i j hi hj
  rcases lt_trichotomy i j with h | h | h
  · exact h
  · exfalso
    rw [h, hj] at hi
    have hsnd := congrArg Prod.snd hi
    simp only at hsnd
    omega
  · exfalso
    have hp := List.pairwise_iff_get.mp hs j i h
    rw [hi, hj] at hp
    unfold store_key_le at hp
    exact hp ((g_strcmp0_swap _ _).mp (sort_key_lt d m n hmn hn))

/-- C5 (amended): the StoreSet order is exactly ascending byte-wise
lexicographic order on the full synthesized sort key `"<name>-<index>"`
over all collected subdirectories; for two top-levels `m < n` both
holding a subdirectory named `d`, the store from `m` comes strictly
first whenever the indices are single-digit (`n ≤ 9`) — with ten or more
configured top-levels the unpadded decimal index makes `"d-10"` sort
before `"d-2"`, so the claimed precedence fails in general. -/
theorem claim_C5_storeset_ordering (toplevels : TopLevels) :
    List.Sorted store_key_le (add_all_authorization_stores toplevels) ∧
    (add_all_authorization_stores toplevels).Perm
      (collect_store_directories toplevels 0 []) ∧
    (∀ (d : String) (m n : Nat), m < n → n ≤ 9 →
      ∀ i j : Fin (add_all_authorization_stores toplevels).length,
        (add_all_authorization_stores toplevels).get i = (d, m) →
        (add_all_authorization_stores toplevels).get j = (d, n) → i < j) := by
  refine ⟨List.sorted_insertionSort _ _, List.perm_insertionSort _ _, ?_⟩
  intro d m n hmn hn
  exact sorted_positions_lt _ (List.sorted_insertionSort _ _) d m n hmn hn

/-- Eleven configured top-level paths; the third (index 2) and the
eleventh (index 10) both contain a subdirectory named `"a"`. -/
def fsC5 : TopLevels :=
  [some [], some [], some [{ name := "a", isDirectory := true }], some [], some [],
    some [], some [], some [], some [], some [],
    some [{ name := "a", isDirectory := true }]]

/-- C5 counterexample: with top-level indices 2 and 10 both holding the
subdirectory `"a"`, the store from the earlier top-level (index 2) is
placed after the one from index 10, because `"a-10"` precedes `"a-2"`
byte-wise. -/
theorem claim_C5_storeset_ordering_counterexample :
    add_all_authorization_stores fsC5 = [("a", 10), ("a", 2)] ∧
    (2 : Nat) < 10 ∧
    (add_all_authorization_stores fsC5).get ⟨0, by decide⟩ = ("a", 10) ∧
    (add_all_authorization_stores fsC5).get ⟨1, by decide⟩ = ("a", 2) := by
  exact ⟨by decide, by decide, by decide, by decide⟩

/-- Two configured top-level paths, each holding a subdirectory `"a"`. -/
def fsPair : TopLevels :=
  [some [{ name := "a", isDirectory := true }],
    some [{ name := "a", isDirectory := true }]]

theorem claim_C5_storeset_ordering_witness :
    (⟨0, by decide⟩ : Fin (add_all_authorization_stores fsPair).length) <
      (⟨1, by decide⟩ : Fin (add_all_authorization_stores fsPair).length) :=
  (claim_C5_storeset_ordering fsPair).2.2 "a" 0 1 (by decide) (by decide)
    ⟨0, by decide⟩ ⟨1, by decide⟩ (by decide) (by decide)
